import Mathlib

/- Verification model of the `filesystem` package's directory-copy core:
   `CountFiles`, `CopyFilesAndDirectory`, `Copy` and `CopyMultipleSources`.

   The filesystem is embedded as a tree of entries carrying fault-injection
   flags (a flag set means the corresponding I/O operation fails when the
   code performs it, mirroring `os.ReadDir`, `os.MkdirAll`, `os.Open`,
   `os.Create` and `io.CopyBuffer` failures).  The destination is an
   association list of names to nodes; `os.Create` truncates, so writing a
   file replaces the slot's content.

   Concurrency model.  In the Go code every subdirectory is copied by a
   spawned goroutine; the running count and the first-error slot are merged
   under mutexes, and sends on the progress channel mark each successful
   file copy.  Goroutines are never cancelled, so the set of filesystem
   effects (which files get copied, what the destination eventually holds,
   how many progress sends eventually happen) is schedule-independent; it
   is computed by the deterministic layer `runFAD`/`runLoop` below, which
   returns a `Run` tree recording, per recursive call: the eventual
   destination contents, the number of files copied synchronously at that
   level, the early-return error of that call (file-copy, mkdir or read
   error) and the `Run`s of the dispatched subdirectory subtasks.

   What IS schedule-dependent is the pair the Go function returns: on the
   early-return paths (lines with `return fileCount, err` inside the entry
   loop) the function reads the shared count without waiting for the
   dispatched goroutines, so the value returned depends on which subtask
   merges happened to be completed; on the normal path it waits for all of
   them.  The observation layer (`obsCount`, `obsErr`, `obsLate`) computes
   the returned count/error from a `Run` tree and a `Sched` tree choosing,
   per call, which dispatched subtasks had merged before an early return
   (`merged`) and which erroring subtask's error arrived first (`pick`).
   Every `Sched` corresponds to a real interleaving: the mutex serializes
   merges, so the parent observes exactly a subset of subtask merges, and
   the first-error slot keeps an arbitrary one of the subtask errors. -/

namespace Filesystem

/-- Byte content of a regular file. -/
abbrev Bytes := List Nat

/-- Errors returned by the modelled I/O operations, tagged with the path
the operation was applied to: directory listing (`os.ReadDir`), directory
creation (`os.MkdirAll`), source open (`os.Open`), destination create
(`os.Create`) and byte transfer (`io.CopyBuffer`). -/
inductive Err where
  | readE (path : String)
  | mkdirE (path : String)
  | openE (path : String)
  | createE (path : String)
  | xferE (path : String)
deriving DecidableEq

/-- A source directory entry.  `file name content openFail createFail
xferFail`: a regular file with the given bytes, whose copy fails at
`os.Open`, `os.Create` or `io.CopyBuffer` when the corresponding flag is
set.  `dir name readFail mkdirFail entries`: a subdirectory whose
`os.ReadDir` fails when `readFail` is set and whose destination
`os.MkdirAll` fails when `mkdirFail` is set. -/
inductive Entry where
  | file (name : String) (content : Bytes) (openFail createFail xferFail : Bool)
  | dir (name : String) (readFail mkdirFail : Bool) (entries : List Entry)

/-- The name of an entry, as `os.ReadDir` reports it. -/
def entryName : Entry → String
  | .file n _ _ _ _ => n
  | .dir n _ _ _ => n

/-- The names of a directory listing, in listing order. -/
def namesL (entries : List Entry) : List String := entries.map entryName

/-- A node of the destination filesystem: a regular file with its bytes, or
a directory with its named children. -/
inductive DNode where
  | dfile (content : Bytes)
  | ddir (entries : List (String × DNode))

/-- State of a destination path when a recursive copy call starts:
`missing` (stat fails with not-exists, so the code runs `os.MkdirAll`),
`dirC es` (an existing directory with children `es`), or `badC` (the path
or one of its ancestors is occupied by a regular file: stat does not
report not-exists, so `os.MkdirAll` is skipped, and every create under it
fails with a not-a-directory error). -/
inductive DCtx where
  | missing
  | dirC (entries : List (String × DNode))
  | badC

/-- Look up a name in a destination directory. -/
def lookupSlot : List (String × DNode) → String → Option DNode
  | [], _ => none
  | (m, v) :: rest, n => if m = n then some v else lookupSlot rest n

/-- Write a name in a destination directory, replacing an existing slot
(`os.Create` truncates; `os.MkdirAll` on an existing directory is a no-op
at the parent).  A fresh name is appended. -/
def setSlot : List (String × DNode) → String → DNode → List (String × DNode)
  | [], n, v => [(n, v)]
  | (m, w) :: rest, n, v => if m = n then (n, v) :: rest else (m, w) :: setSlot rest n v

/-- The `DCtx` a recursive call sees for child `n` of a destination
directory with children `es`. -/
def slotCtx (es : List (String × DNode)) (n : String) : DCtx :=
  match lookupSlot es n with
  | none => .missing
  | some (.dfile _) => .badC
  | some (.ddir ds) => .dirC ds

/-- Whether name `n` is currently a directory in `es` (then `os.Create`
of a file at `n` fails). -/
def isDirSlot (es : List (String × DNode)) (n : String) : Bool :=
  match lookupSlot es n with
  | some (.ddir _) => true
  | _ => false

/-- The deterministic record of one `CopyFilesAndDirectory` call:
`destOut` is the eventual contents of the destination directory the call
was responsible for (`none` when the call never created or owned a
directory there, so the parent slot is left as it was); `syncCount` is the
number of files copied synchronously by the call's own loop; `stopErr` is
the error the call itself returns early with (mkdir, read, or the first
failing file copy at this level), `none` on the normal path; `subs` are
the records of the subdirectory subtasks this call dispatched before
stopping. -/
inductive Run where
  | mk (destOut : Option (List (String × DNode))) (syncCount : Nat)
       (stopErr : Option Err) (subs : List Run)

def Run.destOut : Run → Option (List (String × DNode))
  | .mk d _ _ _ => d

def Run.syncCount : Run → Nat
  | .mk _ s _ _ => s

def Run.stopErr : Run → Option Err
  | .mk _ _ e _ => e

def Run.subs : Run → List Run
  | .mk _ _ _ s => s

/-- Result of the entry loop of one call (lines 70-127 of the Go source):
final destination children, synchronous file copies, early-stop error and
dispatched subtask records. -/
structure LoopRes where
  dest : List (String × DNode)
  syncCount : Nat
  stopErr : Option Err
  subs : List Run

mutual

/-- Deterministic effects of `CopyFilesAndDirectory(sourceDirectory=p,
destinationDirectory, progressChan)` where the source directory lists
`entries` (read failing iff `rF`), the destination path is in state `ctx`,
and creating it would fail iff `mkF`.  Mirrors the Go function: ensure the
destination exists (`os.Stat` / `os.MkdirAll`), list the source, then run
the entry loop. -/
def runFAD (p : String) (mkF rF : Bool) (entries : List Entry) (ctx : DCtx) : Run :=
  match ctx with
  | .missing =>
    if mkF then .mk none 0 (some (.mkdirE p)) []
    else if rF then .mk (some []) 0 (some (.readE p)) []
    else
      let lr := runLoop p false entries []
      .mk (some lr.dest) lr.syncCount lr.stopErr lr.subs
  | .dirC des =>
    if rF then .mk (some des) 0 (some (.readE p)) []
    else
      let lr := runLoop p false entries des
      .mk (some lr.dest) lr.syncCount lr.stopErr lr.subs
  | .badC =>
    if rF then .mk none 0 (some (.readE p)) []
    else
      let lr := runLoop p true entries []
      .mk none lr.syncCount lr.stopErr lr.subs
termination_by (sizeOf entries, 1)

/-- Deterministic effects of the entry loop: for each entry in listing
order, a subdirectory is dispatched as a subtask (recursing with the
child's destination state) and the loop goes on regardless of its
outcome; a regular file is copied synchronously, and the first file error
(`os.Open`, `os.Create` -- injected or because the destination slot is a
directory or under a file -- or `io.CopyBuffer`) stops the loop: the Go
code returns from inside the loop at that point.  A failing transfer
leaves a truncated destination file.  `bad` marks a destination under a
regular file. -/
def runLoop (p : String) (bad : Bool) (entries : List Entry)
    (es : List (String × DNode)) : LoopRes :=
  match entries with
  | [] => ⟨es, 0, none, []⟩
  | .file n c oF cF xF :: rest =>
    if oF then ⟨es, 0, some (.openE (p ++ "/" ++ n)), []⟩
    else if bad || cF || isDirSlot es n then ⟨es, 0, some (.createE (p ++ "/" ++ n)), []⟩
    else if xF then ⟨setSlot es n (.dfile []), 0, some (.xferE (p ++ "/" ++ n)), []⟩
    else
      let lr := runLoop p bad rest (setSlot es n (.dfile c))
      ⟨lr.dest, lr.syncCount + 1, lr.stopErr, lr.subs⟩
  | .dir n rF2 mF2 subEs :: rest =>
    let r := runFAD (p ++ "/" ++ n) mF2 rF2 subEs (if bad then .badC else slotCtx es n)
    let es2 := match r.destOut with
      | some ds => setSlot es n (.ddir ds)
      | none => es
    let lr := runLoop p bad rest es2
    ⟨lr.dest, lr.syncCount, lr.stopErr, r :: lr.subs⟩
termination_by (sizeOf entries, 0)

end

mutual

/-- `CountFiles(directory=p)`: lists the directory (read failing iff `rF`)
and folds over the entries, recursing into subdirectories and adding 1 per
non-directory entry; any error makes it return `(0, err)` at once, exactly
as the Go function does. -/
def CountFiles (p : String) (rF : Bool) (entries : List Entry) : Nat × Option Err :=
  if rF then (0, some (.readE p)) else countLoop p entries
termination_by (sizeOf entries, 1)

/-- The entry loop of `CountFiles`. -/
def countLoop (p : String) (entries : List Entry) : Nat × Option Err :=
  match entries with
  | [] => (0, none)
  | .file _ _ _ _ _ :: rest =>
    let r := countLoop p rest
    match r.2 with
    | some e => (0, some e)
    | none => (r.1 + 1, none)
  | .dir n rF2 _ subEs :: rest =>
    let s := CountFiles (p ++ "/" ++ n) rF2 subEs
    match s.2 with
    | some e => (0, some e)
    | none =>
      let r := countLoop p rest
      match r.2 with
      | some e => (0, some e)
      | none => (s.1 + r.1, none)
termination_by (sizeOf entries, 0)

end

/-- The number of regular-file leaves of a tree (the mathematical count the
spec compares `CountFiles` against). -/
def numFiles (entries : List Entry) : Nat :=
  match entries with
  | [] => 0
  | .file _ _ _ _ _ :: rest => numFiles rest + 1
  | .dir _ _ _ subEs :: rest => numFiles subEs + numFiles rest
termination_by sizeOf entries

mutual

/-- The destination image of one entry under a clean copy. -/
def mirrorE (e : Entry) : String × DNode :=
  match e with
  | .file n c _ _ _ => (n, .dfile c)
  | .dir n _ _ subEs => (n, .ddir (mirrorL subEs))
termination_by sizeOf e

/-- The destination image of a listing under a clean copy: same relative
paths, same byte contents. -/
def mirrorL (entries : List Entry) : List (String × DNode) :=
  match entries with
  | [] => []
  | e :: rest => mirrorE e :: mirrorL rest
termination_by sizeOf entries

end

mutual

/-- No fault-injection flag is set on this entry or below: every I/O
operation the copy performs on it succeeds. -/
def noFailE (e : Entry) : Bool :=
  match e with
  | .file _ _ oF cF xF => !oF && !cF && !xF
  | .dir _ rF mF subEs => !rF && !mF && noFailL subEs
termination_by sizeOf e

/-- No fault-injection flag anywhere in the listing. -/
def noFailL (entries : List Entry) : Bool :=
  match entries with
  | [] => true
  | e :: rest => noFailE e && noFailL rest
termination_by sizeOf entries

end

mutual

/-- Every directory in this entry can be listed (no `readFail` below). -/
def listableE (e : Entry) : Bool :=
  match e with
  | .file _ _ _ _ _ => true
  | .dir _ rF _ subEs => !rF && listableL subEs
termination_by sizeOf e

/-- Every directory in the listing can be listed. -/
def listableL (entries : List Entry) : Bool :=
  match entries with
  | [] => true
  | e :: rest => listableE e && listableL rest
termination_by sizeOf entries

end

mutual

/-- Sibling names are distinct in this entry's subtree, as `os.ReadDir`
guarantees for a real directory. -/
def uniqE (e : Entry) : Bool :=
  match e with
  | .file _ _ _ _ _ => true
  | .dir _ _ _ subEs => uniqL subEs
termination_by sizeOf e

/-- Sibling names are distinct at every level of the listing. -/
def uniqL (entries : List Entry) : Bool :=
  match entries with
  | [] => true
  | e :: rest => !(namesL rest).contains (entryName e) && uniqE e && uniqL rest
termination_by sizeOf entries

end

/-- A schedule: the interleaving choices that affect what a
`CopyFilesAndDirectory` call returns.  `kids` are the schedules of the
entries in listing order (consulted for subdirectory entries), `merged`
says, per entry, whether that subtask's count merge completed before the
call's early return read the shared count, and `pick` selects which
erroring subtask's error reached the first-error slot first. -/
inductive Sched where
  | mk (kids : List Sched) (merged : List Bool) (pick : Nat)

def Sched.kids : Sched → List Sched
  | .mk k _ _ => k

def Sched.merged : Sched → List Bool
  | .mk _ m _ => m

def Sched.pick : Sched → Nat
  | .mk _ _ p => p

/-- The trivial schedule. -/
def Sched.triv : Sched := .mk [] [] 0

mutual

/-- The count `CopyFilesAndDirectory` returns under schedule `sc`: on an
early return (mkdir, read, or file-copy error) the shared count holds the
synchronous copies plus the counts of the subtask merges that had already
completed; on the normal path `waitGroup.Wait()` ran, so every subtask
count is included. -/
def obsCount (sc : Sched) (r : Run) : Nat :=
  match r with
  | .mk _ sync stop subs =>
    match stop with
    | some _ => sync + obsCountMerged sc.kids sc.merged subs
    | none => sync + obsCountAll sc.kids subs

/-- Sum of all subtask counts (the awaited, normal path). -/
def obsCountAll (ks : List Sched) (rs : List Run) : Nat :=
  match rs with
  | [] => 0
  | r :: rs2 => obsCount (ks.headD Sched.triv) r + obsCountAll ks.tail rs2

/-- Sum of the subtask counts whose merge completed before the early
return. -/
def obsCountMerged (ks : List Sched) (ms : List Bool) (rs : List Run) : Nat :=
  match rs with
  | [] => 0
  | r :: rs2 =>
    (if ms.headD false then obsCount (ks.headD Sched.triv) r else 0)
      + obsCountMerged ks.tail ms.tail rs2

end

mutual

/-- The error `CopyFilesAndDirectory` returns under schedule `sc`: the
call's own early-return error if it stopped, otherwise the content of the
first-error slot, i.e. whichever erroring subtask's error arrived first
(selected by `pick`), or none. -/
def obsErr (sc : Sched) (r : Run) : Option Err :=
  match r with
  | .mk _ _ stop subs =>
    match stop with
    | some e => some e
    | none =>
      let errs := obsErrList sc.kids subs
      errs.get? (sc.pick % errs.length)

/-- The errors the dispatched subtasks return, in dispatch order. -/
def obsErrList (ks : List Sched) (rs : List Run) : List Err :=
  match rs with
  | [] => []
  | r :: rs2 =>
    match obsErr (ks.headD Sched.triv) r with
    | some e => e :: obsErrList ks.tail rs2
    | none => obsErrList ks.tail rs2

end

mutual

/-- The total number of progress-channel sends a call's subtree eventually
performs: one per successfully copied file.  Dispatched subtasks always
run to completion, so this is schedule-independent. -/
def sends (r : Run) : Nat :=
  match r with
  | .mk _ sync _ subs => sync + sendsList subs

/-- Total sends of a list of subtask records. -/
def sendsList (rs : List Run) : Nat :=
  match rs with
  | [] => 0
  | r :: rs2 => sends r + sendsList rs2

end

mutual

/-- The number of progress sends that can still happen after the call has
returned, under schedule `sc`: on an early return the dispatched subtasks
are not awaited, so an unmerged subtask can perform all of its sends
later, and a merged one can still have late sends pending from its own
descendants; on the normal path only descendants' late sends remain. -/
def obsLate (sc : Sched) (r : Run) : Nat :=
  match r with
  | .mk _ _ stop subs =>
    match stop with
    | some _ => obsLateStopped sc.kids sc.merged subs
    | none => obsLateAll sc.kids subs

/-- Late sends pending after a normal (awaited) return. -/
def obsLateAll (ks : List Sched) (rs : List Run) : Nat :=
  match rs with
  | [] => 0
  | r :: rs2 => obsLate (ks.headD Sched.triv) r + obsLateAll ks.tail rs2

/-- Late sends pending after an early return: everything from unmerged
subtasks, plus the late sends of merged ones. -/
def obsLateStopped (ks : List Sched) (ms : List Bool) (rs : List Run) : Nat :=
  match rs with
  | [] => 0
  | r :: rs2 =>
    (if ms.headD false then obsLate (ks.headD Sched.triv) r else sends r)
      + obsLateStopped ks.tail ms.tail rs2

end

mutual

/-- No call in this record returned early: the error-free, fully awaited
execution shape. -/
def noStopR (r : Run) : Bool :=
  match r with
  | .mk _ _ stop subs => stop.isNone && noStopL subs

/-- No early return anywhere in a list of records. -/
def noStopL (rs : List Run) : Bool :=
  match rs with
  | [] => true
  | r :: rs2 => noStopR r && noStopL rs2

end

/-- The `(count, err)` pair `CopyFilesAndDirectory` returns under schedule
`sc`. -/
def CopyFilesAndDirectory (sc : Sched) (p : String) (mkF rF : Bool)
    (entries : List Entry) (ctx : DCtx) : Nat × Option Err :=
  let r := runFAD p mkF rF entries ctx
  (obsCount sc r, obsErr sc r)

/-- What the single-source orchestrator `Copy` produces: the returned
count and error, the number of progress sends that can still land after it
closed the progress channel, and the copy record (none when counting
failed and no copying was attempted). -/
structure OrchRes where
  count : Nat
  err : Option Err
  lateSends : Nat
  copyRun : Option Run

/-- `Copy(source, destination)`: count the files (failure aborts with
`(0, err)` before any copying), run `CopyFilesAndDirectory`, then close
the progress channel immediately after it returns.  `lateSends` counts
the sends orphaned subtasks can still perform after that close. -/
def Copy (sc : Sched) (p : String) (mkF rF : Bool) (entries : List Entry)
    (ctx : DCtx) : OrchRes :=
  let c := CountFiles p rF entries
  match c.2 with
  | some e => ⟨0, some e, 0, none⟩
  | none =>
    let r := runFAD p mkF rF entries ctx
    ⟨obsCount sc r, obsErr sc r, obsLate sc r, some r⟩

/-- One source of `CopyMultipleSources`: its path, whether listing its
root fails, and its entries. -/
structure Src where
  path : String
  readFail : Bool
  entries : List Entry

/-- The sequential counting pass of `CopyMultipleSources`: sums
`CountFiles` over the sources in order; the first failure makes the whole
pass return `(0, err)`. -/
def countSources (srcs : List Src) : Nat × Option Err :=
  match srcs with
  | [] => (0, none)
  | s :: rest =>
    let c := CountFiles s.path s.readFail s.entries
    match c.2 with
    | some e => (0, some e)
    | none =>
      let r := countSources rest
      match r.2 with
      | some e => (0, some e)
      | none => (c.1 + r.1, none)

/-- Schedule for a multi-source run: one copy schedule per source, and the
arrival position drawn from the error channel. -/
structure SchedM where
  per : List Sched
  pick : Nat

/-- The per-source copy records: each source task runs
`CopyFilesAndDirectory(source, destination)` against the shared
destination state. -/
def runsOf (srcs : List Src) (ctx : DCtx) : List Run :=
  srcs.map fun s => runFAD s.path false s.readFail s.entries ctx

/-- Result of `CopyMultipleSources`: returned count and error, whether the
destination-ensure step was reached, and the per-source copy records
(empty when no copy task was dispatched). -/
structure CMSRes where
  count : Nat
  err : Option Err
  destEnsured : Bool
  runs : List Run

/-- The destination state the copy tasks see once the orchestrator has
ensured the destination exists. -/
def ensureCtx (dctx : DCtx) : DCtx :=
  match dctx with
  | .missing => .dirC []
  | d => d

/-- The parallel copy phase of `CopyMultipleSources`: every task always
reports its count on the count channel, so the total sums the counts of
failing sources too; the errors go to a buffered channel and, if there is
at least one, the first in arrival order (chosen by `pick`) is returned. -/
def cmsCopy (sm : SchedM) (srcs : List Src) (ctx : DCtx) : CMSRes :=
  let rs := runsOf srcs ctx
  let errs := obsErrList sm.per rs
  ⟨obsCountAll sm.per rs, errs.get? (sm.pick % errs.length), true, rs⟩

/-- `CopyMultipleSources(sources, destination)`: count all sources
sequentially (any failure aborts with `(0, err)` before the destination is
ensured or any task dispatched), ensure the destination exists, dispatch
one copy task per source, await them all, and aggregate counts and
errors. -/
def CopyMultipleSources (sm : SchedM) (srcs : List Src) (destPath : String)
    (dctx : DCtx) (destMkFail : Bool) : CMSRes :=
  let c := countSources srcs
  match c.2 with
  | some e => ⟨0, some e, false, []⟩
  | none =>
    match dctx with
    | .missing =>
      if destMkFail then ⟨0, some (.mkdirE destPath), true, []⟩
      else cmsCopy sm srcs (.dirC [])
    | d => cmsCopy sm srcs d

/-- The copier's configuration, as in the Go struct: the buffer size in
bytes, 0 when unset (the Go zero value). -/
structure CopyDirectory where
  BufferSize : Int

/-- The chunk size the file-copy step actually uses (lines 107-110 of the
source): 1 MiB unless `BufferSize` is positive. -/
def bufSize (cd : CopyDirectory) : Int :=
  if cd.BufferSize > 0 then cd.BufferSize else 1024 * 1024

/-- The destination state of a path after a copy call that owned it:
unchanged when the call produced no directory there, otherwise the
directory it left behind. -/
def applyCtx (ctx : DCtx) (r : Run) : DCtx :=
  match r.destOut with
  | some ds => .dirC ds
  | none => ctx

/-- Clean tree used to witness the success-path theorem. -/
def exClean : List Entry :=
  [.dir "a" false false [.file "f" [1, 2] false false false],
   .file "g" [3] false false false]

/-- Tree with a copyable subdirectory dispatched before a file whose
transfer fails: the early return orphans the subtask. -/
def exOrphan : List Entry :=
  [.dir "a" false false [.file "f" [1] false false false],
   .file "b" [2] false false true]

/-- Same shape as `exOrphan`, used for the close-then-send scenario. -/
def exOrphanClose : List Entry :=
  [.dir "d" false false [.file "g" [7] false false false],
   .file "e" [8] false false true]

/-- Subdirectory with two copyable files dispatched before a failing
file: both successful copies can be missing from the returned count. -/
def exOrphanLost : List Entry :=
  [.dir "a" false false
     [.file "p" [1] false false false, .file "q" [2] false false false],
   .file "z" [3] false false true]

/-- Schedule on which the dispatched subtask of the trees above has not
merged when the early return reads the count. -/
def schedUnmerged : Sched := .mk [Sched.triv] [false] 0

/-- Small tree used to witness idempotence. -/
def exIdem : List Entry :=
  [.dir "a" false false [.file "f" [4] false false false],
   .file "w" [9] false false false]

/-- Sources used to witness the counting-failure abort: the second source
cannot be listed. -/
def exSrcsBadCount : List Src :=
  [⟨"A", false, [.file "x" [1] false false false]⟩, ⟨"B", true, []⟩]

/-- Sources used to witness multi-source error reporting: the second
source's only file fails at open. -/
def exSrcsOneErr : List Src :=
  [⟨"A", false, [.file "x" [1] false false false]⟩,
   ⟨"B", false, [.file "y" [2] true false false]⟩]

/-- Tree whose first entry is countable but whose second directory cannot
be listed: `CountFiles` discards the accumulated count. -/
def exCountErr : List Entry :=
  [.file "a" [1] false false false, .dir "d" true false []]

/-- Listable tree used to witness the counting theorem. -/
def exCountable : List Entry :=
  [.dir "d" false false [.file "u" [5] false false false,
     .file "v" [6] false false false],
   .file "w" [7] true false false]

/-- Unmerged-subtask schedule used for the close-then-send scenario. -/
def schedUnmergedB : Sched := .mk [Sched.triv] [false] 0

/-- Unmerged-subtask schedule used for the lost-count scenario. -/
def schedUnmergedC : Sched := .mk [Sched.triv] [false] 0

/- ------------------------------------------------------------------ -/
/- Theorems.                                                          -/
/- ------------------------------------------------------------------ -/

theorem runLoop_nil (p : String) (bad : Bool) (es : List (String × DNode)) :
    runLoop p bad [] es = ⟨es, 0, none, []⟩ := by
  simp [runLoop]

theorem runLoop_file (p : String) (bad : Bool) (n : String) (c : Bytes)
    (oF cF xF : Bool) (rest : List Entry) (es : List (String × DNode)) :
    runLoop p bad (.file n c oF cF xF :: rest) es =
      if oF then ⟨es, 0, some (.openE (p ++ "/" ++ n)), []⟩
      else if bad || cF || isDirSlot es n then
        ⟨es, 0, some (.createE (p ++ "/" ++ n)), []⟩
      else if xF then ⟨setSlot es n (.dfile []), 0, some (.xferE (p ++ "/" ++ n)), []⟩
      else
        let lr := runLoop p bad rest (setSlot es n (.dfile c))
        ⟨lr.dest, lr.syncCount + 1, lr.stopErr, lr.subs⟩ := by
  rw [runLoop]

theorem runLoop_dir (p : String) (bad : Bool) (n : String) (rF2 mF2 : Bool)
    (subEs rest : List Entry) (es : List (String × DNode)) :
    runLoop p bad (.dir n rF2 mF2 subEs :: rest) es =
      let r := runFAD (p ++ "/" ++ n) mF2 rF2 subEs (if bad then .badC else slotCtx es n)
      let es2 := match r.destOut with
        | some ds => setSlot es n (.ddir ds)
        | none => es
      let lr := runLoop p bad rest es2
      ⟨lr.dest, lr.syncCount, lr.stopErr, r :: lr.subs⟩ := by
  rw [runLoop]

theorem runFAD_missing (p : String) (mkF rF : Bool) (entries : List Entry) :
    runFAD p mkF rF entries .missing =
      if mkF then .mk none 0 (some (.mkdirE p)) []
      else if rF then .mk (some []) 0 (some (.readE p)) []
      else
        let lr := runLoop p false entries []
        .mk (some lr.dest) lr.syncCount lr.stopErr lr.subs := by
  rw [runFAD]

theorem runFAD_dirC (p : String) (mkF rF : Bool) (entries : List Entry)
    (des : List (String × DNode)) :
    runFAD p mkF rF entries (.dirC des) =
      if rF then .mk (some des) 0 (some (.readE p)) []
      else
        let lr := runLoop p false entries des
        .mk (some lr.dest) lr.syncCount lr.stopErr lr.subs := by
  rw [runFAD]

theorem runFAD_badC (p : String) (mkF rF : Bool) (entries : List Entry) :
    runFAD p mkF rF entries .badC =
      if rF then .mk none 0 (some (.readE p)) []
      else
        let lr := runLoop p true entries []
        .mk none lr.syncCount lr.stopErr lr.subs := by
  rw [runFAD]

theorem lookupSlot_setSlot_self (es : List (String × DNode)) (n : String) (v : DNode) :
    lookupSlot (setSlot es n v) n = some v := by
  induction es with
  | nil => simp [setSlot, lookupSlot]
  | cons hd tl ih =>
    obtain ⟨m, w⟩ := hd
    by_cases h : m = n <;> simp [setSlot, lookupSlot, h, ih]

theorem lookupSlot_setSlot_ne (es : List (String × DNode)) (n m : String) (v : DNode)
    (h : n ≠ m) : lookupSlot (setSlot es n v) m = lookupSlot es m := by
  induction es with
  | nil => simp [setSlot, lookupSlot, h]
  | cons hd tl ih =>
    obtain ⟨k, w⟩ := hd
    by_cases hk : k = n
    · subst hk
      simp [setSlot, lookupSlot, h]
    · simp [setSlot, lookupSlot, hk, ih]

theorem setSlot_lookup_eq (es : List (String × DNode)) (n : String) (v : DNode)
    (h : lookupSlot es n = some v) : setSlot es n v = es := by
  induction es with
  | nil => simp [lookupSlot] at h
  | cons hd tl ih =>
    obtain ⟨k, w⟩ := hd
    by_cases hk : k = n
    · subst hk
      simp [lookupSlot] at h
      simp [setSlot, h]
    · simp [lookupSlot, hk] at h
      simp [setSlot, hk, ih h]

theorem setSlot_fresh (es : List (String × DNode)) (n : String) (v : DNode)
    (h : lookupSlot es n = none) : setSlot es n v = es ++ [(n, v)] := by
  induction es with
  | nil => simp [setSlot]
  | cons hd tl ih =>
    obtain ⟨k, w⟩ := hd
    by_cases hk : k = n
    · subst hk
      simp [lookupSlot] at h
    · simp [lookupSlot, hk] at h
      simp [setSlot, hk, ih h]

/-- The entry loop only ever writes destination slots named after its own
entries: any other name keeps its original content. -/
theorem runLoop_lookup_of_notMem (p : String) (bad : Bool) (entries : List Entry)
    (es : List (String × DNode)) (n : String) (h : n ∉ namesL entries) :
    lookupSlot (runLoop p bad entries es).dest n = lookupSlot es n := by
  induction entries generalizing es with
  | nil => simp [runLoop_nil]
  | cons e rest ih =>
    have hne : entryName e ≠ n := by
      intro hEq
      exact h (by simp [namesL, hEq.symm])
    have hrest : n ∉ namesL rest := by
      intro hm
      exact h (by simp [namesL] at hm ⊢; exact .inr hm)
    cases e with
    | file nm c oF cF xF =>
      rw [runLoop_file]
      by_cases hoF : oF
      · simp [hoF]
      · by_cases hcr : bad || cF || isDirSlot es nm
        · simp [hoF, hcr]
        · by_cases hxF : xF
          · simp [hoF, hcr, hxF]
            exact lookupSlot_setSlot_ne es nm n _ (by simpa [entryName] using hne)
          · simp only [hoF, hcr, hxF, Bool.false_eq_true, if_false]
            rw [ih _ hrest]
            exact lookupSlot_setSlot_ne es nm n _ (by simpa [entryName] using hne)
    | dir nm rF2 mF2 subEs =>
      rw [runLoop_dir]
      simp only []
      cases hout : (runFAD (p ++ "/" ++ nm) mF2 rF2 subEs
          (if bad then .badC else slotCtx es nm)).destOut with
      | none =>
        simp only [hout]
        exact ih _ hrest
      | some ds =>
        simp only [hout]
        rw [ih _ hrest]
        exact lookupSlot_setSlot_ne es nm n _ (by simpa [entryName] using hne)

theorem one_le_sizeOf_entry (e : Entry) : 1 ≤ sizeOf e := by
  cases e <;> simp_arith

theorem sizeOf_rest_lt (e : Entry) (rest : List Entry) :
    sizeOf rest < sizeOf (e :: rest) := by
  have := one_le_sizeOf_entry e
  simp [List.cons.sizeOf_spec]

theorem sizeOf_subEs_lt (nm : String) (rF2 mF2 : Bool) (subEs rest : List Entry) :
    sizeOf subEs < sizeOf (Entry.dir nm rF2 mF2 subEs :: rest) := by
  have h1 : sizeOf (Entry.dir nm rF2 mF2 subEs) = 1 + sizeOf nm + sizeOf rF2 + sizeOf mF2 + sizeOf subEs := by
    simp
  have h2 : (1 : Nat) ≤ sizeOf rest := by
    cases rest with
    | nil => simp
    | cons f t => have := one_le_sizeOf_entry f; simp [List.cons.sizeOf_spec]; omega
  simp [List.cons.sizeOf_spec, h1]
  omega

theorem uniqL_cons (e : Entry) (rest : List Entry) (h : uniqL (e :: rest) = true) :
    entryName e ∉ namesL rest ∧ uniqE e = true ∧ uniqL rest = true := by
  rw [uniqL] at h
  simp only [Bool.and_eq_true, Bool.not_eq_true'] at h
  exact ⟨by simpa using h.1.1, h.1.2, h.2⟩

theorem runFAD_badC_destOut (cp : String) (mF rF : Bool) (subEs : List Entry) :
    (runFAD cp mF rF subEs .badC).destOut = none := by
  rw [runFAD_badC]
  by_cases hrF : rF <;> simp [hrF, Run.destOut]

theorem slotCtx_eq_dirC (es : List (String × DNode)) (n : String)
    (ds : List (String × DNode)) (h : slotCtx es n = .dirC ds) :
    lookupSlot es n = some (.ddir ds) := by
  unfold slotCtx at h
  cases hl : lookupSlot es n with
  | none => rw [hl] at h; exact absurd h (by simp)
  | some v =>
    cases v with
    | dfile c => rw [hl] at h; exact absurd h (by simp)
    | ddir ds2 =>
      rw [hl] at h
      simp only [DCtx.dirC.injEq] at h
      rw [h]

/-- Repeating one recursive copy call leaves the destination of that call
unchanged, provided repeating its entry loop does. -/
theorem frame_idem_aux (cp : String) (mF rF : Bool) (subEs : List Entry)
    (hloop : ∀ es, (runLoop cp false subEs (runLoop cp false subEs es).dest).dest
      = (runLoop cp false subEs es).dest) (c0 : DCtx) :
    applyCtx (applyCtx c0 (runFAD cp mF rF subEs c0))
        (runFAD cp mF rF subEs (applyCtx c0 (runFAD cp mF rF subEs c0)))
      = applyCtx c0 (runFAD cp mF rF subEs c0) := by
  cases c0 with
  | missing =>
    by_cases hmk : mF
    · simp [runFAD_missing, hmk, applyCtx, Run.destOut]
    · by_cases hrF : rF
      · simp [runFAD_missing, runFAD_dirC, hmk, hrF, applyCtx, Run.destOut]
      · simp [runFAD_missing, runFAD_dirC, hmk, hrF, applyCtx, Run.destOut, hloop]
  | dirC des =>
    by_cases hrF : rF
    · simp [runFAD_dirC, hrF, applyCtx, Run.destOut]
    · simp [runFAD_dirC, hrF, applyCtx, Run.destOut, hloop]
  | badC =>
    by_cases hrF : rF
    · simp [runFAD_badC, hrF, applyCtx, Run.destOut]
    · simp [runFAD_badC, hrF, applyCtx, Run.destOut]

/-- Running the entry loop a second time over its own output changes
nothing: file copies overwrite slots with the same bytes (create
truncates), transfer failures re-truncate the same slot, create failures
leave the slot alone, and subdirectory dispatches reproduce the same
child directory. -/
theorem runLoop_dest_idem (N : Nat) : ∀ (entries : List Entry), sizeOf entries ≤ N →
    uniqL entries = true → ∀ (p : String) (bad : Bool) (es : List (String × DNode)),
    (runLoop p bad entries (runLoop p bad entries es).dest).dest
      = (runLoop p bad entries es).dest := by
  induction N with
  | zero =>
    intro entries hsz _ p bad es
    cases entries with
    | nil => simp [runLoop_nil]
    | cons e rest =>
      exfalso
      have h1 := one_le_sizeOf_entry e
      have h2 : sizeOf (e :: rest) = 1 + sizeOf e + sizeOf rest := by simp
      omega
  | succ n ih =>
    intro entries hsz hu p bad es
    cases entries with
    | nil => simp [runLoop_nil]
    | cons e rest =>
      obtain ⟨hn, hue, hur⟩ := uniqL_cons e rest hu
      have hszr : sizeOf rest ≤ n := by
        have h1 := one_le_sizeOf_entry e
        have h2 : sizeOf (e :: rest) = 1 + sizeOf e + sizeOf rest := by simp
        omega
      cases e with
      | file nm c oF cF xF =>
        have hnm : nm ∉ namesL rest := by simpa [entryName] using hn
        by_cases hoF : oF
        · simp [runLoop_file, hoF]
        · by_cases hcr : (bad || cF || isDirSlot es nm) = true
          · simp [runLoop_file, hoF, hcr]
          · simp only [Bool.or_eq_true, not_or, Bool.not_eq_true] at hcr
            obtain ⟨⟨hbad, hcF⟩, hdir⟩ := hcr
            subst hbad
            by_cases hxF : xF
            · have hd1 : isDirSlot (setSlot es nm (DNode.dfile [])) nm = false := by
                simp [isDirSlot, lookupSlot_setSlot_self]
              have hset : setSlot (setSlot es nm (DNode.dfile [])) nm (DNode.dfile [])
                  = setSlot es nm (DNode.dfile []) :=
                setSlot_lookup_eq _ nm _ (lookupSlot_setSlot_self es nm _)
              simp [runLoop_file, hoF, hcF, hdir, hxF, hd1, hset]
            · have hd1lookup : lookupSlot
                  (runLoop p false rest (setSlot es nm (DNode.dfile c))).dest nm
                  = some (DNode.dfile c) := by
                rw [runLoop_lookup_of_notMem p false rest _ nm hnm]
                exact lookupSlot_setSlot_self es nm _
              have hd1dir : isDirSlot
                  (runLoop p false rest (setSlot es nm (DNode.dfile c))).dest nm = false := by
                simp [isDirSlot, hd1lookup]
              have hset : setSlot
                  (runLoop p false rest (setSlot es nm (DNode.dfile c))).dest nm (DNode.dfile c)
                  = (runLoop p false rest (setSlot es nm (DNode.dfile c))).dest :=
                setSlot_lookup_eq _ nm _ hd1lookup
              have hih := ih rest hszr hur p false (setSlot es nm (DNode.dfile c))
              simp [runLoop_file, hoF, hcF, hdir, hxF, hd1dir, hset, hih]
      | dir nm rF2 mF2 subEs =>
        have hnm : nm ∉ namesL rest := by simpa [entryName] using hn
        have hszs : sizeOf subEs ≤ n := by
          have h1 := sizeOf_subEs_lt nm rF2 mF2 subEs rest
          omega
        have husub : uniqL subEs = true := by simpa [uniqE] using hue
        have hloopsub : ∀ es', (runLoop (p ++ "/" ++ nm) false subEs
            (runLoop (p ++ "/" ++ nm) false subEs es').dest).dest
            = (runLoop (p ++ "/" ++ nm) false subEs es').dest :=
          fun es' => ih subEs hszs husub (p ++ "/" ++ nm) false es'
        cases bad with
        | true =>
          have hih := ih rest hszr hur p true es
          simp [runLoop_dir, runFAD_badC_destOut, hih]
        | false =>
          cases hout : (runFAD (p ++ "/" ++ nm) mF2 rF2 subEs (slotCtx es nm)).destOut with
          | none =>
            have hih := ih rest hszr hur p false es
            have hlk : lookupSlot (runLoop p false rest es).dest nm = lookupSlot es nm :=
              runLoop_lookup_of_notMem p false rest es nm hnm
            have hctx : slotCtx (runLoop p false rest es).dest nm = slotCtx es nm := by
              simp [slotCtx, hlk]
            simp [runLoop_dir, hout, hctx, hih]
          | some ds =>
            have hlk : lookupSlot
                (runLoop p false rest (setSlot es nm (DNode.ddir ds))).dest nm
                = some (DNode.ddir ds) := by
              rw [runLoop_lookup_of_notMem p false rest _ nm hnm]
              exact lookupSlot_setSlot_self es nm _
            have hctx : slotCtx
                (runLoop p false rest (setSlot es nm (DNode.ddir ds))).dest nm
                = DCtx.dirC ds := by
              simp [slotCtx, hlk]
            have hfr := frame_idem_aux (p ++ "/" ++ nm) mF2 rF2 subEs hloopsub (slotCtx es nm)
            rw [show applyCtx (slotCtx es nm)
                (runFAD (p ++ "/" ++ nm) mF2 rF2 subEs (slotCtx es nm)) = DCtx.dirC ds from by
              simp [applyCtx, hout]] at hfr
            have hset : setSlot
                (runLoop p false rest (setSlot es nm (DNode.ddir ds))).dest nm (DNode.ddir ds)
                = (runLoop p false rest (setSlot es nm (DNode.ddir ds))).dest :=
              setSlot_lookup_eq _ nm _ hlk
            have hih := ih rest hszr hur p false (setSlot es nm (DNode.ddir ds))
            cases hr2 : (runFAD (p ++ "/" ++ nm) mF2 rF2 subEs (DCtx.dirC ds)).destOut with
            | none =>
              simp [runLoop_dir, hout, hctx, hr2, hih]
            | some ds2 =>
              have hds : ds2 = ds := by
                simp [applyCtx, hr2] at hfr
                exact hfr
              subst hds
              simp [runLoop_dir, hout, hctx, hr2, hset, hih]

theorem listableL_cons (e : Entry) (rest : List Entry)
    (h : listableL (e :: rest) = true) :
    listableE e = true ∧ listableL rest = true := by
  rw [listableL] at h
  simpa [Bool.and_eq_true] using h

theorem noFailL_cons (e : Entry) (rest : List Entry)
    (h : noFailL (e :: rest) = true) :
    noFailE e = true ∧ noFailL rest = true := by
  rw [noFailL] at h
  simpa [Bool.and_eq_true] using h

/-- On a listable tree the sequential counting pass returns the number of
regular-file leaves and no error. -/
theorem countLoop_ok (N : Nat) : ∀ (entries : List Entry), sizeOf entries ≤ N →
    listableL entries = true → ∀ p, countLoop p entries = (numFiles entries, none) := by
  induction N with
  | zero =>
    intro entries hsz _ p
    cases entries with
    | nil => simp [countLoop, numFiles]
    | cons e rest =>
      exfalso
      have h1 := one_le_sizeOf_entry e
      have h2 : sizeOf (e :: rest) = 1 + sizeOf e + sizeOf rest := by simp
      omega
  | succ n ih =>
    intro entries hsz hl p
    cases entries with
    | nil => simp [countLoop, numFiles]
    | cons e rest =>
      obtain ⟨hle, hlr⟩ := listableL_cons e rest hl
      have hszr : sizeOf rest ≤ n := by
        have h1 := one_le_sizeOf_entry e
        have h2 : sizeOf (e :: rest) = 1 + sizeOf e + sizeOf rest := by simp
        omega
      cases e with
      | file nm c oF cF xF =>
        rw [countLoop]
        simp [ih rest hszr hlr p, numFiles]
      | dir nm rF2 mF2 subEs =>
        have hszs : sizeOf subEs ≤ n := by
          have h1 := sizeOf_subEs_lt nm rF2 mF2 subEs rest
          omega
        rw [listableE] at hle
        simp only [Bool.and_eq_true, Bool.not_eq_true'] at hle
        rw [countLoop, CountFiles]
        simp [hle.1, ih subEs hszs hle.2, ih rest hszr hlr p, numFiles]

/-- `CountFiles` on a listable tree: the count of file leaves, no error. -/
theorem CountFiles_ok (p : String) (entries : List Entry)
    (h : listableL entries = true) :
    CountFiles p false entries = (numFiles entries, none) := by
  rw [CountFiles]
  simpa using countLoop_ok (sizeOf entries) entries le_rfl h p

/-- A tree with no fault injections is in particular listable. -/
theorem noFail_listable (N : Nat) : ∀ (entries : List Entry), sizeOf entries ≤ N →
    noFailL entries = true → listableL entries = true := by
  induction N with
  | zero =>
    intro entries hsz _
    cases entries with
    | nil => simp [listableL]
    | cons e rest =>
      exfalso
      have h1 := one_le_sizeOf_entry e
      have h2 : sizeOf (e :: rest) = 1 + sizeOf e + sizeOf rest := by simp
      omega
  | succ n ih =>
    intro entries hsz hnf
    cases entries with
    | nil => simp [listableL]
    | cons e rest =>
      obtain ⟨hne, hnr⟩ := noFailL_cons e rest hnf
      have hszr : sizeOf rest ≤ n := by
        have h1 := one_le_sizeOf_entry e
        have h2 : sizeOf (e :: rest) = 1 + sizeOf e + sizeOf rest := by simp
        omega
      rw [listableL]
      rw [Bool.and_eq_true]
      refine ⟨?_, ih rest hszr hnr⟩
      cases e with
      | file nm c oF cF xF => simp [listableE]
      | dir nm rF2 mF2 subEs =>
        have hszs : sizeOf subEs ≤ n := by
          have h1 := sizeOf_subEs_lt nm rF2 mF2 subEs rest
          omega
        rw [noFailE] at hne
        simp only [Bool.and_eq_true, Bool.not_eq_true'] at hne
        rw [listableE]
        simp [hne.1.1, ih subEs hszs hne.2]

theorem lookupSlot_append_none (es es2 : List (String × DNode)) (s : String)
    (h : lookupSlot es s = none) : lookupSlot (es ++ es2) s = lookupSlot es2 s := by
  induction es with
  | nil => simp
  | cons hd tl ih =>
    obtain ⟨k, w⟩ := hd
    by_cases hk : k = s
    · rw [lookupSlot] at h
      simp [hk] at h
    · rw [List.cons_append, lookupSlot]
      rw [lookupSlot] at h
      simp only [hk, if_false] at h ⊢
      exact ih h

theorem namesL_cons (e : Entry) (rest : List Entry) :
    namesL (e :: rest) = entryName e :: namesL rest := rfl

theorem runLoop_file_okstep (p : String) (n : String) (c : Bytes) (rest : List Entry)
    (es : List (String × DNode)) (h : isDirSlot es n = false) :
    runLoop p false (.file n c false false false :: rest) es =
      ⟨(runLoop p false rest (setSlot es n (.dfile c))).dest,
       (runLoop p false rest (setSlot es n (.dfile c))).syncCount + 1,
       (runLoop p false rest (setSlot es n (.dfile c))).stopErr,
       (runLoop p false rest (setSlot es n (.dfile c))).subs⟩ := by
  rw [runLoop_file]
  simp [h]

theorem runLoop_dir_false (p : String) (n : String) (rF2 mF2 : Bool)
    (subEs rest : List Entry) (es : List (String × DNode)) :
    runLoop p false (.dir n rF2 mF2 subEs :: rest) es =
      let r := runFAD (p ++ "/" ++ n) mF2 rF2 subEs (slotCtx es n)
      let es2 := match r.destOut with
        | some ds => setSlot es n (.ddir ds)
        | none => es
      let lr := runLoop p false rest es2
      ⟨lr.dest, lr.syncCount, lr.stopErr, r :: lr.subs⟩ := by
  rw [runLoop_dir]
  simp

/-- On a fault-free tree with distinct sibling names the entry loop runs to
the end: it appends the mirror image of the listing to the destination,
stops with no error, performs one successful copy per file leaf (counted
either synchronously or inside a dispatched subtask), and no call in any
subtask returns early. -/
theorem runLoop_noFail_ok (N : Nat) : ∀ (entries : List Entry), sizeOf entries ≤ N →
    noFailL entries = true → uniqL entries = true →
    ∀ (p : String) (es : List (String × DNode)),
    (∀ s ∈ namesL entries, lookupSlot es s = none) →
    (runLoop p false entries es).dest = es ++ mirrorL entries
    ∧ (runLoop p false entries es).stopErr = none
    ∧ (runLoop p false entries es).syncCount
        + sendsList (runLoop p false entries es).subs = numFiles entries
    ∧ noStopL (runLoop p false entries es).subs = true := by
  induction N with
  | zero =>
    intro entries hsz _ _ p es _
    cases entries with
    | nil => simp [runLoop_nil, mirrorL, numFiles, sendsList, noStopL]
    | cons e rest =>
      exfalso
      have h1 := one_le_sizeOf_entry e
      have h2 : sizeOf (e :: rest) = 1 + sizeOf e + sizeOf rest := by simp
      omega
  | succ n ih =>
    intro entries hsz hnf hu p es hf
    cases entries with
    | nil => simp [runLoop_nil, mirrorL, numFiles, sendsList, noStopL]
    | cons e rest =>
      obtain ⟨hn, hue, hur⟩ := uniqL_cons e rest hu
      obtain ⟨hne, hnr⟩ := noFailL_cons e rest hnf
      have hszr : sizeOf rest ≤ n := by
        have h1 := one_le_sizeOf_entry e
        have h2 : sizeOf (e :: rest) = 1 + sizeOf e + sizeOf rest := by simp
        omega
      cases e with
      | file nm c oF cF xF =>
        rw [noFailE] at hne
        simp only [Bool.and_eq_true, Bool.not_eq_true'] at hne
        obtain ⟨⟨hoF, hcF⟩, hxF⟩ := hne
        subst hoF; subst hcF; subst hxF
        have hnm : nm ∉ namesL rest := by simpa [entryName] using hn
        have hfnm : lookupSlot es nm = none :=
          hf nm (by rw [namesL_cons]; exact List.mem_cons_self _ _)
        have hdir : isDirSlot es nm = false := by simp [isDirSlot, hfnm]
        have hes' : setSlot es nm (DNode.dfile c) = es ++ [(nm, DNode.dfile c)] :=
          setSlot_fresh es nm _ hfnm
        have hf' : ∀ s ∈ namesL rest, lookupSlot (es ++ [(nm, DNode.dfile c)]) s = none := by
          intro s hs
          have hsnm : ¬nm = s := fun hEq => hnm (hEq ▸ hs)
          rw [lookupSlot_append_none es _ s
            (hf s (by rw [namesL_cons]; exact List.mem_cons_of_mem _ hs))]
          simp [lookupSlot, hsnm]
        obtain ⟨ihd, ihe, ihc, ihs⟩ := ih rest hszr hnr hur p (es ++ [(nm, DNode.dfile c)]) hf'
        rw [runLoop_file_okstep p nm c rest es hdir]
        dsimp only
        rw [hes']
        refine ⟨?_, ?_, ?_, ?_⟩
        · rw [ihd]
          simp [mirrorL, mirrorE]
        · exact ihe
        · rw [numFiles]
          omega
        · exact ihs
      | dir nm rF2 mF2 subEs =>
        rw [noFailE] at hne
        simp only [Bool.and_eq_true, Bool.not_eq_true'] at hne
        obtain ⟨⟨hrF2, hmF2⟩, hnsub⟩ := hne
        subst hrF2; subst hmF2
        have hnm : nm ∉ namesL rest := by simpa [entryName] using hn
        have husub : uniqL subEs = true := by simpa [uniqE] using hue
        have hszs : sizeOf subEs ≤ n := by
          have h1 := sizeOf_subEs_lt nm false false subEs rest
          omega
        have hfnm : lookupSlot es nm = none :=
          hf nm (by rw [namesL_cons]; exact List.mem_cons_self _ _)
        have hctx : slotCtx es nm = .missing := by simp [slotCtx, hfnm]
        obtain ⟨chd, che, chc, chs⟩ := ih subEs hszs hnsub husub (p ++ "/" ++ nm) []
          (by intro s _; simp [lookupSlot])
        simp only [List.nil_append] at chd
        have hchild : runFAD (p ++ "/" ++ nm) false false subEs DCtx.missing
            = Run.mk (some (mirrorL subEs))
                (runLoop (p ++ "/" ++ nm) false subEs []).syncCount
                (runLoop (p ++ "/" ++ nm) false subEs []).stopErr
                (runLoop (p ++ "/" ++ nm) false subEs []).subs := by
          rw [runFAD_missing]
          simp [chd]
        have hes' : setSlot es nm (DNode.ddir (mirrorL subEs))
            = es ++ [(nm, DNode.ddir (mirrorL subEs))] :=
          setSlot_fresh es nm _ hfnm
        have hf' : ∀ s ∈ namesL rest,
            lookupSlot (es ++ [(nm, DNode.ddir (mirrorL subEs))]) s = none := by
          intro s hs
          have hsnm : ¬nm = s := fun hEq => hnm (hEq ▸ hs)
          rw [lookupSlot_append_none es _ s
            (hf s (by rw [namesL_cons]; exact List.mem_cons_of_mem _ hs))]
          simp [lookupSlot, hsnm]
        obtain ⟨ihd, ihe, ihc, ihs⟩ := ih rest hszr hnr hur p
          (es ++ [(nm, DNode.ddir (mirrorL subEs))]) hf'
        rw [runLoop_dir_false]
        dsimp only
        rw [hctx, hchild]
        dsimp only [Run.destOut]
        rw [hes']
        refine ⟨?_, ?_, ?_, ?_⟩
        · rw [ihd]
          simp [mirrorL, mirrorE]
        · exact ihe
        · simp only [sendsList, sends]
          rw [numFiles]
          omega
        · simp only [noStopL, noStopR, che]
          simp [chs, ihs]

/-- A fault-free copy into a fresh destination creates exactly the mirror
of the source, no call in the subtree returns early, and one send is
eventually performed per file leaf. -/
theorem runFAD_noFail (p : String) (entries : List Entry)
    (h1 : noFailL entries = true) (h2 : uniqL entries = true) :
    (runFAD p false false entries .missing).destOut = some (mirrorL entries)
    ∧ noStopR (runFAD p false false entries .missing) = true
    ∧ sends (runFAD p false false entries .missing) = numFiles entries := by
  obtain ⟨hd, he, hc, hs⟩ := runLoop_noFail_ok (sizeOf entries) entries le_rfl h1 h2 p []
    (by intro s _; simp [lookupSlot])
  simp only [List.nil_append] at hd
  rw [runFAD_missing]
  simp only [Bool.false_eq_true, if_false]
  refine ⟨?_, ?_, ?_⟩
  · simp [Run.destOut, hd]
  · simp [noStopR, he, hs]
  · simp [sends, hc]

theorem one_le_sizeOf_run (r : Run) : 1 ≤ sizeOf r := by
  cases r
  simp_arith

/-- When no call in a record returned early, the observed count equals the
eventual number of sends under every schedule (everything was awaited),
and the observed error is none. -/
theorem obs_noStop (N : Nat) :
    (∀ r : Run, sizeOf r ≤ N → noStopR r = true →
      ∀ sc, obsCount sc r = sends r ∧ obsErr sc r = none)
    ∧ (∀ rs : List Run, sizeOf rs ≤ N → noStopL rs = true →
      ∀ ks, obsCountAll ks rs = sendsList rs ∧ obsErrList ks rs = []) := by
  induction N with
  | zero =>
    constructor
    · intro r hsz _ _
      exfalso
      have h1 := one_le_sizeOf_run r
      omega
    · intro rs hsz hns ks
      cases rs with
      | nil => simp [obsCountAll, sendsList, obsErrList]
      | cons r rs2 =>
        exfalso
        have h1 := one_le_sizeOf_run r
        have h2 : sizeOf (r :: rs2) = 1 + sizeOf r + sizeOf rs2 := by simp
        omega
  | succ n ih =>
    constructor
    · intro r hsz hns sc
      cases r with
      | mk d sync stop subs =>
        rw [noStopR] at hns
        simp only [Bool.and_eq_true, Option.isNone_iff_eq_none] at hns
        obtain ⟨hstop, hsubs⟩ := hns
        subst hstop
        have hsz2 : sizeOf subs ≤ n := by
          simp at hsz
          omega
        obtain ⟨hc, he⟩ := ih.2 subs hsz2 hsubs sc.kids
        constructor
        · simp only [obsCount]
          simp [sends, hc]
        · simp only [obsErr]
          simp [he]
    · intro rs hsz hns ks
      cases rs with
      | nil => simp [obsCountAll, sendsList, obsErrList]
      | cons r rs2 =>
        rw [noStopL] at hns
        simp only [Bool.and_eq_true] at hns
        obtain ⟨hr, hrs⟩ := hns
        have hszr : sizeOf r ≤ n := by
          simp at hsz
          omega
        have hszrs : sizeOf rs2 ≤ n := by
          have h1 := one_le_sizeOf_run r
          simp at hsz
          omega
        obtain ⟨hc1, he1⟩ := ih.1 r hszr hr (ks.headD Sched.triv)
        obtain ⟨hc2, he2⟩ := ih.2 rs2 hszrs hrs ks.tail
        constructor
        · rw [obsCountAll, sendsList, hc1, hc2]
        · rw [obsErrList, he1]
          simpa using he2

/-- Every error path of the counting loop returns the pair `(0, err)`
literally, so a failing count is always zero. -/
theorem countLoop_err_zero (p : String) (entries : List Entry) :
    (countLoop p entries).2 = none ∨ (countLoop p entries).1 = 0 := by
  cases entries with
  | nil => left; simp [countLoop]
  | cons e rest =>
    cases e with
    | file nm c oF cF xF =>
      rw [countLoop]
      cases hr : (countLoop p rest).2 with
      | some e2 => right; simp [hr]
      | none => left; simp [hr]
    | dir nm rF2 mF2 subEs =>
      rw [countLoop]
      cases hs : (CountFiles (p ++ "/" ++ nm) rF2 subEs).2 with
      | some e2 => right; simp [hs]
      | none =>
        cases hr : (countLoop p rest).2 with
        | some e2 => right; simp [hs, hr]
        | none => left; simp [hs, hr]

theorem CountFiles_err_zero_aux (p : String) (rF : Bool) (entries : List Entry) :
    (CountFiles p rF entries).2 = none ∨ (CountFiles p rF entries).1 = 0 := by
  rw [CountFiles]
  by_cases h : rF
  · right; simp [h]
  · simpa [h] using countLoop_err_zero p entries

/- ------------------------------------------------------------------ -/
/- Claim theorems.                                                    -/
/- ------------------------------------------------------------------ -/

/-- Claim C1: for a tree with no I/O failures (and the distinct sibling
names every real directory listing has), copying into a fresh destination
through the orchestrator returns no error, returns a count equal to
`CountFiles` of the source, and the eventual destination is exactly the
mirror of the source: the same relative paths with the same byte
contents.  This holds for every schedule of the concurrent subtasks. -/
theorem Copy_noFail_correct (sc : Sched) (p : String) (entries : List Entry)
    (h1 : noFailL entries = true) (h2 : uniqL entries = true) :
    (Copy sc p false false entries .missing).count = (CountFiles p false entries).1
    ∧ (Copy sc p false false entries .missing).err = none
    ∧ (runFAD p false false entries .missing).destOut = some (mirrorL entries) := by
  have hl : listableL entries = true := noFail_listable (sizeOf entries) entries le_rfl h1
  have hcf : CountFiles p false entries = (numFiles entries, none) := CountFiles_ok p entries hl
  obtain ⟨hd, hns, hsend⟩ := runFAD_noFail p entries h1 h2
  obtain ⟨hc, he⟩ := (obs_noStop (sizeOf (runFAD p false false entries DCtx.missing))).1
    (runFAD p false false entries DCtx.missing) le_rfl hns sc
  refine ⟨?_, ?_, hd⟩
  · simp [Copy, hcf, hc, hsend]
  · simp [Copy, hcf, he]

/-- Witness for C1 on a concrete two-level tree. -/
theorem Copy_noFail_correct_witness :
    noFailL exClean = true ∧ uniqL exClean = true
    ∧ ((Copy Sched.triv "s" false false exClean .missing).count
        = (CountFiles "s" false exClean).1
      ∧ (Copy Sched.triv "s" false false exClean .missing).err = none
      ∧ (runFAD "s" false false exClean .missing).destOut = some (mirrorL exClean)) :=
  ⟨by simp [noFailL, noFailE, exClean],
   by simp [uniqL, uniqE, exClean, namesL, entryName],
   Copy_noFail_correct Sched.triv "s" exClean
     (by simp [noFailL, noFailE, exClean])
     (by simp [uniqL, uniqE, exClean, namesL, entryName])⟩

/-- Claim C2 fails on the code: the early `return fileCount, err` on a
file-copy failure skips `waitGroup.Wait()`, so an already-dispatched
subdirectory subtask is not awaited.  On `exOrphan`, under the real
interleaving where the subtask for directory `a` has not merged its count
when the failing copy of file `b` returns, the call returns `(0, xferE)`
even though the subtask eventually copies 1 file (`sends = 1`); under the
interleaving where the subtask happened to finish first the same call
returns `(1, xferE)`.  The claimed always-awaited behaviour would make
the returned count include that file deterministically. -/
theorem copyFAD_unawaited_subtask_progress_lost :
    CopyFilesAndDirectory schedUnmerged "s" false false exOrphan .missing
      = (0, some (.xferE "s/b"))
    ∧ sends (runFAD "s" false false exOrphan .missing) = 1
    ∧ CopyFilesAndDirectory (Sched.mk [Sched.triv] [true] 0) "s" false false exOrphan .missing
      = (1, some (.xferE "s/b")) := by
  refine ⟨?_, ?_, ?_⟩ <;>
    simp [CopyFilesAndDirectory, runFAD, runLoop, slotCtx, lookupSlot, isDirSlot, setSlot,
      obsCount, obsCountAll, obsCountMerged, obsErr, obsErrList, sends, sendsList,
      Sched.kids, Sched.merged, Sched.pick, schedUnmerged, Sched.triv, exOrphan]

/-- Claim C3 fails on the code: `Copy` closes the progress channel as
soon as `CopyFilesAndDirectory` returns, but on `exOrphanClose`, when the
failing copy of file `e` triggers the early return that skips
`waitGroup.Wait()`, the orphaned subtask for directory `d` has one
progress send still pending (`lateSends = 1`): that send lands on the
channel after close was initiated (in Go, a send on a closed channel and
a panic). -/
theorem copy_send_after_close_possible :
    (Copy schedUnmergedB "t" false false exOrphanClose .missing).lateSends = 1
    ∧ (Copy schedUnmergedB "t" false false exOrphanClose .missing).err
        = some (.xferE "t/e") := by
  constructor <;>
    simp [Copy, CountFiles, countLoop, runFAD, runLoop, slotCtx, lookupSlot, isDirSlot, setSlot,
      obsCount, obsCountMerged, obsErr, obsLate, obsLateStopped, obsLateAll, sends, sendsList,
      Sched.kids, Sched.merged, Sched.pick, schedUnmergedB, Sched.triv, exOrphanClose]

/-- Claim C4 fails on the code: on `exOrphanLost` the subtree performs 2
successful file copies (`sends = 2`, both in the dispatched subtask `a`),
but under the interleaving where the subtask has not merged when the
failing copy of `z` triggers the early return, the aggregated count the
call returns is 0: successful copies are lost from the count, because the
early return path reads the shared count without awaiting the dispatched
subtasks. -/
theorem copyFAD_completed_copies_missing_from_count :
    (CopyFilesAndDirectory schedUnmergedC "s" false false exOrphanLost .missing).1 = 0
    ∧ sends (runFAD "s" false false exOrphanLost .missing) = 2 := by
  constructor <;>
    simp [CopyFilesAndDirectory, runFAD, runLoop, slotCtx, lookupSlot, isDirSlot, setSlot,
      obsCount, obsCountMerged, obsErr, sends, sendsList,
      Sched.kids, Sched.merged, Sched.pick, schedUnmergedC, Sched.triv, exOrphanLost]

/-- Claim C5: on every tree whose directories can all be listed,
`CountFiles` returns the number of regular-file leaves (independent of
nesting: each directory entry contributes its recursive count, every
other entry contributes exactly 1) and no error. -/
theorem CountFiles_counts_leaves (p : String) (entries : List Entry)
    (h : listableL entries = true) :
    CountFiles p false entries = (numFiles entries, none) :=
  CountFiles_ok p entries h

/-- Witness for C5: a nested tree with three file leaves (one of them
uncopyable, which counting does not care about). -/
theorem CountFiles_counts_leaves_witness :
    listableL exCountable = true
    ∧ CountFiles "s" false exCountable = (numFiles exCountable, none) :=
  ⟨by simp [listableL, listableE, exCountable],
   CountFiles_counts_leaves "s" exCountable (by simp [listableL, listableE, exCountable])⟩

/-- Claim C6: running the tree copy twice with the same source and the
same destination leaves the destination exactly as after the first run:
`os.Create` truncates, so every file write is an overwrite, never an
append; directory creation of an existing directory is a no-op.  Stated
for every destination state and every fault injection, assuming only the
distinct sibling names of a real listing. -/
theorem copy_overwrite_idempotent (p : String) (mkF rF : Bool) (entries : List Entry)
    (ctx : DCtx) (hu : uniqL entries = true) :
    applyCtx (applyCtx ctx (runFAD p mkF rF entries ctx))
        (runFAD p mkF rF entries (applyCtx ctx (runFAD p mkF rF entries ctx)))
      = applyCtx ctx (runFAD p mkF rF entries ctx) :=
  frame_idem_aux p mkF rF entries
    (fun es => runLoop_dest_idem (sizeOf entries) entries le_rfl hu p false es) ctx

/-- Witness for C6 on a concrete tree and a fresh destination. -/
theorem copy_overwrite_idempotent_witness :
    uniqL exIdem = true
    ∧ applyCtx (applyCtx .missing (runFAD "s" false false exIdem .missing))
        (runFAD "s" false false exIdem (applyCtx .missing (runFAD "s" false false exIdem .missing)))
      = applyCtx .missing (runFAD "s" false false exIdem .missing) :=
  ⟨by simp [uniqL, uniqE, exIdem, namesL, entryName],
   copy_overwrite_idempotent "s" false false exIdem .missing
     (by simp [uniqL, uniqE, exIdem, namesL, entryName])⟩

/-- Claim C7: if counting any source fails, `CopyMultipleSources` returns
that error (the first failing source in the sequential counting order)
with count 0, before the destination-ensure step runs and before any copy
task is dispatched: no directory is created and no file is copied. -/
theorem copyMultiple_count_failure_aborts (sm : SchedM) (srcs : List Src)
    (dp : String) (dctx : DCtx) (dmf : Bool) (e : Err)
    (hc : (countSources srcs).2 = some e) :
    (CopyMultipleSources sm srcs dp dctx dmf).count = 0
    ∧ (CopyMultipleSources sm srcs dp dctx dmf).err = some e
    ∧ (CopyMultipleSources sm srcs dp dctx dmf).destEnsured = false
    ∧ (CopyMultipleSources sm srcs dp dctx dmf).runs = [] := by
  refine ⟨?_, ?_, ?_, ?_⟩ <;> simp [CopyMultipleSources, hc]

/-- Witness for C7: the second source cannot be listed. -/
theorem copyMultiple_count_failure_aborts_witness :
    (countSources exSrcsBadCount).2 = some (Err.readE "B")
    ∧ ((CopyMultipleSources ⟨[], 0⟩ exSrcsBadCount "D" .missing false).count = 0
      ∧ (CopyMultipleSources ⟨[], 0⟩ exSrcsBadCount "D" .missing false).err
          = some (Err.readE "B")
      ∧ (CopyMultipleSources ⟨[], 0⟩ exSrcsBadCount "D" .missing false).destEnsured = false
      ∧ (CopyMultipleSources ⟨[], 0⟩ exSrcsBadCount "D" .missing false).runs = []) :=
  ⟨by simp [countSources, CountFiles, countLoop, exSrcsBadCount],
   copyMultiple_count_failure_aborts ⟨[], 0⟩ exSrcsBadCount "D" .missing false (Err.readE "B")
     (by simp [countSources, CountFiles, countLoop, exSrcsBadCount])⟩

/-- Claim C8: when counting succeeded, the destination was ensured, and
at least one per-source task returned an error, `CopyMultipleSources`
returns exactly one of the encountered errors (which one depends on the
arrival order on the error channel, i.e. on the schedule) together with
the sum of every source's returned count, the failing sources' counts
included (every task reports on the count channel before reporting its
error). -/
theorem copyMultiple_one_error_total_count (sm : SchedM) (srcs : List Src)
    (dp : String) (dctx : DCtx) (dmf : Bool)
    (hc : (countSources srcs).2 = none)
    (hd : ¬(dctx = DCtx.missing ∧ dmf = true))
    (he : obsErrList sm.per (runsOf srcs (ensureCtx dctx)) ≠ []) :
    (CopyMultipleSources sm srcs dp dctx dmf).count
      = obsCountAll sm.per (runsOf srcs (ensureCtx dctx))
    ∧ ∃ e, e ∈ obsErrList sm.per (runsOf srcs (ensureCtx dctx))
        ∧ (CopyMultipleSources sm srcs dp dctx dmf).err = some e := by
  have hstep : CopyMultipleSources sm srcs dp dctx dmf = cmsCopy sm srcs (ensureCtx dctx) := by
    cases dctx with
    | missing =>
      cases dmf with
      | true => exact absurd ⟨rfl, rfl⟩ hd
      | false => simp [CopyMultipleSources, hc, ensureCtx]
    | dirC des => simp [CopyMultipleSources, hc, ensureCtx]
    | badC => simp [CopyMultipleSources, hc, ensureCtx]
  rw [hstep]
  constructor
  · simp [cmsCopy]
  · have hlt : sm.pick % (obsErrList sm.per (runsOf srcs (ensureCtx dctx))).length
        < (obsErrList sm.per (runsOf srcs (ensureCtx dctx))).length :=
      Nat.mod_lt _ (List.length_pos.2 he)
    obtain ⟨e, hge⟩ : ∃ e, (obsErrList sm.per (runsOf srcs (ensureCtx dctx))).get?
        (sm.pick % (obsErrList sm.per (runsOf srcs (ensureCtx dctx))).length) = some e := by
      rw [List.get?_eq_get hlt]
      exact ⟨_, rfl⟩
    refine ⟨e, List.get?_mem hge, ?_⟩
    simp only [cmsCopy]
    simpa using hge

/-- Witness for C8: two sources, the second one failing at its only file's
open. -/
theorem copyMultiple_one_error_total_count_witness :
    (countSources exSrcsOneErr).2 = none
    ∧ ¬(DCtx.dirC [] = DCtx.missing ∧ false = true)
    ∧ obsErrList (SchedM.mk [Sched.triv, Sched.triv] 0).per
        (runsOf exSrcsOneErr (ensureCtx (DCtx.dirC []))) ≠ []
    ∧ ((CopyMultipleSources ⟨[Sched.triv, Sched.triv], 0⟩ exSrcsOneErr "D" (DCtx.dirC []) false).count
        = obsCountAll (SchedM.mk [Sched.triv, Sched.triv] 0).per
            (runsOf exSrcsOneErr (ensureCtx (DCtx.dirC [])))
      ∧ ∃ e, e ∈ obsErrList (SchedM.mk [Sched.triv, Sched.triv] 0).per
            (runsOf exSrcsOneErr (ensureCtx (DCtx.dirC [])))
          ∧ (CopyMultipleSources ⟨[Sched.triv, Sched.triv], 0⟩ exSrcsOneErr "D" (DCtx.dirC []) false).err
              = some e) :=
  ⟨by simp [countSources, CountFiles, countLoop, exSrcsOneErr],
   by simp,
   by simp [obsErrList, obsErr, runsOf, runFAD, runLoop, ensureCtx, exSrcsOneErr,
     Sched.kids, Sched.pick, Sched.triv, slotCtx, lookupSlot, isDirSlot, setSlot],
   copyMultiple_one_error_total_count ⟨[Sched.triv, Sched.triv], 0⟩ exSrcsOneErr "D"
     (DCtx.dirC []) false
     (by simp [countSources, CountFiles, countLoop, exSrcsOneErr])
     (by simp)
     (by simp [obsErrList, obsErr, runsOf, runFAD, runLoop, ensureCtx, exSrcsOneErr,
       Sched.kids, Sched.pick, Sched.triv, slotCtx, lookupSlot, isDirSlot, setSlot])⟩

/-- Claim C9: the chunk size used by the buffered file transfer is the
configured `BufferSize` when it is positive, and exactly 1 MiB (1048576
bytes) when it is unset (the Go zero value), zero or negative. -/
theorem bufSize_spec (cd : CopyDirectory) :
    (0 < cd.BufferSize → bufSize cd = cd.BufferSize)
    ∧ (cd.BufferSize ≤ 0 → bufSize cd = 1048576) := by
  constructor
  · intro h
    simp [bufSize, h]
  · intro h
    have h2 : ¬cd.BufferSize > 0 := by omega
    norm_num [bufSize, h2]

/-- Witness for C9 at a positive and a negative configuration. -/
theorem bufSize_spec_witness :
    ((0 : Int) < 4096 ∧ bufSize ⟨4096⟩ = 4096)
    ∧ ((-3 : Int) ≤ 0 ∧ bufSize ⟨-3⟩ = 1048576) :=
  ⟨⟨by norm_num, (bufSize_spec ⟨4096⟩).1 (by norm_num)⟩,
   ⟨by norm_num, (bufSize_spec ⟨-3⟩).2 (by norm_num)⟩⟩

/-- Claim C10: whenever `CountFiles` returns an error -- from listing the
directory itself or from any recursive subdirectory count -- the count it
returns with it is exactly 0; the count accumulated before the failure is
discarded. -/
theorem CountFiles_zero_on_error (p : String) (rF : Bool) (entries : List Entry)
    (h : (CountFiles p rF entries).2 ≠ none) : (CountFiles p rF entries).1 = 0 :=
  (CountFiles_err_zero_aux p rF entries).resolve_left h

/-- Witness for C10: one countable file followed by an unlistable
directory; the accumulated 1 is discarded. -/
theorem CountFiles_zero_on_error_witness :
    (CountFiles "s" false exCountErr).2 ≠ none
    ∧ (CountFiles "s" false exCountErr).1 = 0 :=
  ⟨by simp [CountFiles, countLoop, exCountErr],
   CountFiles_zero_on_error "s" false exCountErr
     (by simp [CountFiles, countLoop, exCountErr])⟩

end Filesystem
